import Mathlib

/-!
# Elmer substrate — verification of the socket manager, engine and boundary adapters

Shallow embedding of the Elmer signal-processing substrate:
`core/socket_manager.py`, `core/base_socket.py`, `core/comprehension.py`,
`core/monitoring.py`, `runtime/engine.py`, `runtime/graph_encoder.py` and
`runtime/signal_decoder.py`.  Python dicts (insertion-ordered, unique keys)
are modelled as association lists with the corresponding insert/lookup/pop
operations; exceptions are modelled with `Except String`; the external
`ng_ecosystem` signal data type is modelled from the spec's data model.
-/

/-- Python values appearing in payloads and metadata maps.  `vOther` carries
the `str()` rendering of a value that is neither a string, an int nor a bool. -/
inductive PyVal where
  | vStr : String → PyVal
  | vInt : Int → PyVal
  | vBool : Bool → PyVal
  | vOther : String → PyVal
deriving DecidableEq, Repr

/-- Closed enumeration of signal types (`ng_ecosystem.SignalType`, modelled
from the spec: SENSORY, INFERENCE, HEALTH, MEMORY, IDENTITY). -/
inductive SignalType where
  | sensory
  | inference
  | health
  | memory
  | identity
deriving DecidableEq, Repr

/-- The `.value` string of a `SignalType` member, as used by routing and
by the encoder (`signal.signal_type.value`). -/
def SignalType.value : SignalType → String
  | .sensory => "sensory"
  | .inference => "inference"
  | .health => "health"
  | .memory => "memory"
  | .identity => "identity"

/-- Association-list model of a Python dict: insertion order kept, keys unique. -/
abbrev Dict (α : Type) := List (String × α)

/-- `d[k]` lookup / `d.get(k)`: first binding of the key, if any. -/
def dictLookup {α : Type} : Dict α → String → Option α
  | [], _ => none
  | (k, v) :: rest, key => if k = key then some v else dictLookup rest key

/-- `d[k] = v`: update in place if the key exists (keeping its position),
otherwise append at the end — exactly Python's insertion-order semantics. -/
def dictInsert {α : Type} : Dict α → String → α → Dict α
  | [], key, val => [(key, val)]
  | (k, v) :: rest, key, val =>
      if k = key then (k, val) :: rest else (k, v) :: dictInsert rest key val

/-- `d.pop(k, None)` restricted to the removal effect: drop the first binding
of the key (with unique keys, the only one). -/
def dictPop {α : Type} : Dict α → String → Dict α
  | [], _ => []
  | (k, v) :: rest, key => if k = key then rest else (k, v) :: dictPop rest key

/-- `k in d`. -/
def dictContains {α : Type} (d : Dict α) (key : String) : Bool :=
  (dictLookup d key).isSome

/-- The keys of a dict, in insertion order. -/
def dictKeys {α : Type} (d : Dict α) : List String :=
  d.map Prod.fst

/-- A single quote character, for Python `str()` renderings. -/
def pyQuote : String := String.singleton (Char.ofNat 39)

/-- Python `str()`/`repr()` of a `PyVal` as it appears inside a dict rendering. -/
def pyReprVal : PyVal → String
  | .vStr s => pyQuote ++ s ++ pyQuote
  | .vInt n => toString n
  | .vBool b => if b then "True" else "False"
  | .vOther s => s

/-- The comma-separated body of a Python dict rendering. -/
def pyReprEntries : Dict PyVal → String
  | [] => ""
  | [(k, v)] => pyQuote ++ k ++ pyQuote ++ ": " ++ pyReprVal v
  | (k, v) :: rest =>
      pyQuote ++ k ++ pyQuote ++ ": " ++ pyReprVal v ++ ", " ++ pyReprEntries rest

/-- Python `str(payload)` for a dict payload, e.g. `\x7b'text': 'hi'\x7d`. -/
def pyStrDict (d : Dict PyVal) : String :=
  "\x7b" ++ pyReprEntries d ++ "\x7d"

/-- Modelled from the spec: the immutable `ng_ecosystem.SubstrateSignal` data
model — identity token, closed type enumeration, originating socket, payload
map, confidence, priority, creation timestamp, metadata map, and the optional
externally-attached encoding.  `confidence` is an integer-valued stand-in for
the float field (no claim computes with its numeric value) and `timestamp`
an integer stand-in for the wall clock. -/
structure SubstrateSignal where
  signal_id : String
  signal_type : SignalType
  source_socket : String
  payload : Dict PyVal
  confidence : Int
  priority : Int
  timestamp : Int
  metadata : Dict PyVal
  graph_encoding : Option (Dict PyVal)
deriving DecidableEq, Repr

/-- Modelled from the spec: the single factory path `SubstrateSignal.create`.
Identity generation and timestamping are effects of the environment, so the
fresh id and timestamp are explicit arguments; `graph_encoding` starts absent. -/
def SubstrateSignal.create (signal_id : String) (timestamp : Int)
    (source_socket : String) (signal_type : SignalType) (payload : Dict PyVal)
    (confidence : Int) (priority : Int) (metadata : Dict PyVal) :
    SubstrateSignal :=
  { signal_id := signal_id
    signal_type := signal_type
    source_socket := source_socket
    payload := payload
    confidence := confidence
    priority := priority
    timestamp := timestamp
    metadata := metadata
    graph_encoding := none }

/-- Modelled from the spec: `withUpdates` copy-on-write restricted to the two
fields the sockets in this repository actually override (`source_socket` and
`metadata`); every other field is carried over unchanged. -/
def SubstrateSignal.with_updates (s : SubstrateSignal)
    (source_socket : String) (metadata : Dict PyVal) : SubstrateSignal :=
  { s with source_socket := source_socket, metadata := metadata }

/-- A registered processing unit (`ElmerSocket` subclass instance): identity and
type are constant for the object's life; `connected` is its connection state;
`connect_ok` says whether its `connect()` can acquire resources (the concrete
Phase-1 sockets always can); `processFn` is the behaviour of `process` given the
current connection state; `healthFn` is the behaviour of `health_check` given
the current connection state, returning a string-valued health dict or raising.
Telemetry counters (`_process_count`, `_error_count`, timestamps) are wall-clock
bookkeeping no claim observes and are not carried. -/
structure Socket where
  socket_id : String
  socket_type : String
  connected : Bool
  connect_ok : Bool
  processFn : Bool → SubstrateSignal → Except String SubstrateSignal
  healthFn : Bool → Except String (Dict String)

/-- `ElmerSocket.connect()`: idempotent; transitions disconnected→connected when
resources are available, raises otherwise. -/
def Socket.connect (s : Socket) : Except String Socket :=
  if s.connected then .ok s
  else if s.connect_ok then .ok { s with connected := true }
  else .error ("Failed to connect " ++ s.socket_id)

/-- `ComprehensionSocket.process` (`core/comprehension.py`): raises when not
connected; otherwise annotates the metadata and stamps its own socket id as
the source via `with_updates`. -/
def comprehensionProcess (connected : Bool) (signal : SubstrateSignal) :
    Except String SubstrateSignal :=
  if !connected then .error "ComprehensionSocket not connected"
  else
    .ok (signal.with_updates "elmer:comprehension"
      (dictInsert
        (dictInsert signal.metadata "comprehension_processed" (.vBool true))
        "comprehension_version" (.vStr "0.1.0")))

/-- `ComprehensionSocket.health_check`: base health plus status healthy/offline. -/
def comprehensionHealth (connected : Bool) : Except String (Dict String) :=
  .ok [("status", if connected then "healthy" else "offline")]

/-- The `ComprehensionSocket` instance at construction (`SOCKET_ID =
"elmer:comprehension"`, `SOCKET_TYPE = "sensory"`, disconnected). -/
def comprehensionSocket : Socket :=
  { socket_id := "elmer:comprehension"
    socket_type := "sensory"
    connected := false
    connect_ok := true
    processFn := comprehensionProcess
    healthFn := comprehensionHealth }

/-- `MonitoringSocket.process` (`core/monitoring.py`). -/
def monitoringProcess (connected : Bool) (signal : SubstrateSignal) :
    Except String SubstrateSignal :=
  if !connected then .error "MonitoringSocket not connected"
  else
    .ok (signal.with_updates "elmer:monitoring"
      (dictInsert
        (dictInsert signal.metadata "monitoring_processed" (.vBool true))
        "monitoring_version" (.vStr "0.1.0")))

/-- `MonitoringSocket.health_check`. -/
def monitoringHealth (connected : Bool) : Except String (Dict String) :=
  .ok [("status", if connected then "healthy" else "offline")]

/-- The `MonitoringSocket` instance at construction (`SOCKET_ID =
"elmer:monitoring"`, `SOCKET_TYPE = "health"`, disconnected). -/
def monitoringSocket : Socket :=
  { socket_id := "elmer:monitoring"
    socket_type := "health"
    connected := false
    connect_ok := true
    processFn := monitoringProcess
    healthFn := monitoringHealth }

/-- Hardware capability summary (`SocketManager.detect_hardware` result).  The
platform probes (`os.cpu_count`, torch, ROCm paths) are environment queries, so
a detection outcome is a value of this type supplied by the environment. -/
structure Hardware where
  cpu_cores : Nat
  gpu_available : Bool
  npu_available : Bool
deriving DecidableEq, Repr

/-- `SocketManager` state (`core/socket_manager.py`): the primary registry
`_sockets` (id → socket), the secondary `_type_index` (type → ordered id list),
the capacity bound, the lazily cached hardware detection, the started flag. -/
structure SocketManager where
  sockets : Dict Socket
  type_index : Dict (List String)
  max_sockets : Nat
  hardware : Option Hardware
  started : Bool

/-- `SocketManager.__init__(max_sockets=16)`. -/
def SocketManager.init (max_sockets : Nat) : SocketManager :=
  { sockets := []
    type_index := []
    max_sockets := max_sockets
    hardware := none
    started := false }

/-- `SocketManager.register`: duplicate-id check, capacity check, then insert
into the registry and append the id to its type bucket (creating the bucket
when absent).  Both checks precede any mutation, so a raise leaves the state
untouched — in the `Except` embedding an `.error` carries no new state. -/
def SocketManager.register (m : SocketManager) (socket : Socket) :
    Except String SocketManager :=
  if dictContains m.sockets socket.socket_id then
    .error ("Socket already registered: " ++ socket.socket_id)
  else if m.sockets.length ≥ m.max_sockets then
    .error ("Socket limit reached (" ++ toString m.max_sockets ++ "). " ++
      "Cannot register " ++ socket.socket_id)
  else
    let sockets := dictInsert m.sockets socket.socket_id socket
    let bucket := (dictLookup m.type_index socket.socket_type).getD []
    let type_index :=
      dictInsert m.type_index socket.socket_type (bucket ++ [socket.socket_id])
    .ok { m with sockets := sockets, type_index := type_index }

/-- `SocketManager.unregister`: no-op for an absent id; otherwise pop from the
registry and filter the id out of its type bucket.  The best-effort disconnect
of the removed socket touches only the departing object, not the manager. -/
def SocketManager.unregister (m : SocketManager) (socket_id : String) :
    SocketManager :=
  match dictLookup m.sockets socket_id with
  | none => m
  | some socket =>
      let sockets := dictPop m.sockets socket_id
      let type_index :=
        match dictLookup m.type_index socket.socket_type with
        | none => m.type_index
        | some bucket =>
            dictInsert m.type_index socket.socket_type
              (bucket.filter (fun sid => sid ≠ socket_id))
      { m with sockets := sockets, type_index := type_index }

/-- The body of the `route_signal` loop: scan the bucket in order; skip ids
missing from the registry and disconnected sockets; call `process` on a
connected socket and return its result; on a raise, log and continue with the
rest of the bucket; return the original signal when the scan is exhausted. -/
def routeScan (sockets : Dict Socket) (signal : SubstrateSignal) :
    List String → SubstrateSignal
  | [] => signal
  | sid :: rest =>
      match dictLookup sockets sid with
      | some socket =>
          if socket.connected then
            match socket.processFn socket.connected signal with
            | .ok result => result
            | .error _ => routeScan sockets signal rest
          else routeScan sockets signal rest
      | none => routeScan sockets signal rest

/-- `SocketManager.route_signal`: look up the type bucket for the signal's
declared type (empty when absent) and scan it. -/
def SocketManager.route_signal (m : SocketManager) (signal : SubstrateSignal) :
    SubstrateSignal :=
  routeScan m.sockets signal
    ((dictLookup m.type_index signal.signal_type.value).getD [])

/-- One pass of the `connect_all` loop over the registry items: each socket is
connected independently; a raise records `false` for that socket and leaves it
in its previous state; a success records `true` and keeps the connected state. -/
def connectList : Dict Socket → Dict Socket × Dict Bool
  | [] => ([], [])
  | (sid, socket) :: rest =>
      let tail := connectList rest
      match socket.connect with
      | .ok socket2 => ((sid, socket2) :: tail.1, (sid, true) :: tail.2)
      | .error _ => ((sid, socket) :: tail.1, (sid, false) :: tail.2)

/-- `SocketManager.connect_all`: run hardware detection lazily (only when no
cached result exists — `detected` is the environment's answer to that probe),
then connect every registered socket independently and return the per-socket
success map. -/
def SocketManager.connect_all (m : SocketManager) (detected : Hardware) :
    SocketManager × Dict Bool :=
  let hardware := match m.hardware with
    | none => some detected
    | some h => some h
  let out := connectList m.sockets
  ({ m with sockets := out.1, hardware := hardware, started := true }, out.2)

/-- The per-socket entries of `health_report`: each socket's `health_check`
result keyed by id, a raise converted to an error dict, and the status string
extracted with `h.get("status", "unknown")`. -/
def healthEntries (sockets : Dict Socket) : Dict (Dict String) × List String :=
  match sockets with
  | [] => ([], [])
  | (sid, socket) :: rest =>
      let tail := healthEntries rest
      match socket.healthFn socket.connected with
      | .ok h =>
          ((sid, h) :: tail.1, ((dictLookup h "status").getD "unknown") :: tail.2)
      | .error e =>
          ((sid, [("status", "error"), ("error", e)]) :: tail.1, "error" :: tail.2)

/-- The aggregate report returned by `SocketManager.health_report`. -/
structure HealthReport where
  status : String
  socket_count : Nat
  connected_count : Nat
  hardware : Option Hardware
  sockets : Dict (Dict String)

/-- `SocketManager.health_report`: collect per-socket health, then derive the
overall status: `no_sockets` on an empty list, `healthy` when all statuses are
healthy, `offline` when all are offline-or-error, `degraded` otherwise. -/
def SocketManager.health_report (m : SocketManager) : HealthReport :=
  let entries := healthEntries m.sockets
  let statuses := entries.2
  let overall :=
    if statuses.isEmpty then "no_sockets"
    else if statuses.all (fun s => s == "healthy") then "healthy"
    else if statuses.all (fun s => s == "offline" || s == "error") then "offline"
    else "degraded"
  { status := overall
    socket_count := m.sockets.length
    connected_count := (m.sockets.filter (fun p => p.2.connected)).length
    hardware := m.hardware
    sockets := entries.1 }

/-- The graph encoding produced by `GraphEncoder.encode`: embedding vector,
deterministic target id, and attribution metadata.  Embedding values are
opaque stand-ins (see `GraphEncoder`). -/
structure GraphEncoding where
  embedding : List Int
  target_id : String
  metadata : Dict PyVal
deriving DecidableEq, Repr

/-- `GraphEncoder` (`runtime/graph_encoder.py`).  The hash-based `_embed`
(SHA-256 bytes reinterpreted as float32 and L2-normalized) is numeric
environment machinery no claim depends on; it is carried as the opaque
function `embedFn` from the representative text to an embedding vector. -/
structure GraphEncoder where
  embedFn : String → List Int

/-- The loop of `GraphEncoder._extract_text`: try the fixed keys in order and
return the first value that is present and a string; fall back to the `str()`
rendering of the whole payload. -/
def extractLoop (payload : Dict PyVal) : List String → String
  | [] => pyStrDict payload
  | key :: rest =>
      match dictLookup payload key with
      | some (.vStr s) => s
      | _ => extractLoop payload rest

/-- `GraphEncoder._extract_text`: representative text from the payload via the
fixed key order `text`, `content`, `message`, `query`. -/
def GraphEncoder.extract_text (signal : SubstrateSignal) : String :=
  extractLoop signal.payload ["text", "content", "message", "query"]

/-- `GraphEncoder.encode`: embedding of the representative text, target id
`"{type}:{source_socket}"`, and signal-context metadata. -/
def GraphEncoder.encode (enc : GraphEncoder) (signal : SubstrateSignal) :
    GraphEncoding :=
  let text := GraphEncoder.extract_text signal
  let embedding := enc.embedFn text
  let target_id := signal.signal_type.value ++ ":" ++ signal.source_socket
  { embedding := embedding
    target_id := target_id
    metadata :=
      [("signal_id", .vStr signal.signal_id),
       ("signal_type", .vStr signal.signal_type.value),
       ("source_socket", .vStr signal.source_socket),
       ("confidence", .vInt signal.confidence),
       ("priority", .vInt signal.priority)] }

/-- The flat record produced by `SignalDecoder.decode`: a pure projection of
the signal's fields. -/
structure DecodedRecord where
  signal_id : String
  signal_type : String
  source_socket : String
  payload : Dict PyVal
  confidence : Int
  priority : Int
  metadata : Dict PyVal
  graph_encoding : Option (Dict PyVal)
deriving DecidableEq, Repr

/-- `SignalDecoder.decode` (`runtime/signal_decoder.py`). -/
def SignalDecoder.decode (signal : SubstrateSignal) : DecodedRecord :=
  { signal_id := signal.signal_id
    signal_type := signal.signal_type.value
    source_socket := signal.source_socket
    payload := signal.payload
    confidence := signal.confidence
    priority := signal.priority
    metadata := signal.metadata
    graph_encoding := signal.graph_encoding }

/-- Modelled from the spec: the external learning collaborator
(`ng_ecosystem.NGEcosystem`), consumed only — a tier, a `get_context` query
over embeddings, and a `stats` snapshot. -/
structure NGEco where
  tier : Nat
  get_context : List Int → Dict PyVal
  stats : Dict PyVal

/-- `ElmerEngine` state (`runtime/engine.py`): socket manager, encoder,
optional collaborator, started flag and the per-engine process counter.
The decoder is stateless. -/
structure ElmerEngine where
  socket_manager : SocketManager
  graph_encoder : GraphEncoder
  ecosystem : Option NGEco
  started : Bool
  process_count : Nat

/-- `ElmerEngine.__init__`: fresh manager bounded by the configured maximum,
fresh encoder, no collaborator, unstarted, counter at zero. -/
def ElmerEngine.init (max_sockets : Nat) (embedFn : String → List Int) :
    ElmerEngine :=
  { socket_manager := SocketManager.init max_sockets
    graph_encoder := { embedFn := embedFn }
    ecosystem := none
    started := false
    process_count := 0 }

/-- The startup report of `ElmerEngine.start` (versions and hardware echo
omitted: wall-clock/config context no claim observes). -/
structure StartReport where
  status : String
  sockets : Dict Bool
  ecosystem_tier : Nat

/-- `ElmerEngine.start`: short-circuit when already started; otherwise register
the fixed default sockets, `connect_all` them, and attempt collaborator
initialization — `ecoInit` is the environment's outcome of
`NGEcosystem.get_instance` (`none` models the caught failure, after which the
engine continues in standalone mode with tier 0).  Registration on a fresh
manager cannot raise; a raise on a reused manager propagates as in the code. -/
def ElmerEngine.start (e : ElmerEngine) (detected : Hardware)
    (ecoInit : Option NGEco) : Except String (ElmerEngine × StartReport) :=
  if e.started then .ok (e, { status := "already_started", sockets := [], ecosystem_tier := 0 })
  else do
    let m1 ← e.socket_manager.register comprehensionSocket
    let m2 ← m1.register monitoringSocket
    let out := m2.connect_all detected
    let eco_tier := match ecoInit with
      | some eco => eco.tier
      | none => 0
    .ok ({ e with socket_manager := out.1, ecosystem := ecoInit, started := true },
      { status := "started", sockets := out.2, ecosystem_tier := eco_tier })

/-- The output record of `ElmerEngine.process_text`: the decoded signal with
the stamped `process_id` key and the optional `ecosystem` key. -/
structure ProcessOutput where
  decoded : DecodedRecord
  process_id : Nat
  ecosystem : Option (Dict PyVal)
deriving Repr

/-- `ElmerEngine.process_text`: raise when not started; otherwise increment the
per-engine counter, create a fresh SENSORY signal carrying the text (fresh id
and timestamp are environment inputs), route it through the manager, query the
collaborator over the encoder's embedding when present (the encoding always
carries an `embedding` key; a falsy — empty — context dict is not attached),
decode, and stamp the counter onto the result. -/
def ElmerEngine.process_text (e : ElmerEngine) (text : String)
    (signal_id : String) (timestamp : Int) :
    Except String (ElmerEngine × ProcessOutput) :=
  if !e.started then .error "Engine not started. Call start() first."
  else
    let count := e.process_count + 1
    let signal := SubstrateSignal.create signal_id timestamp "engine:input"
      .sensory [("text", .vStr text)] 1 5 [("process_id", .vInt count)]
    let processed := e.socket_manager.route_signal signal
    let eco_result := match e.ecosystem with
      | some eco => some (eco.get_context ((e.graph_encoder.encode processed).embedding))
      | none => none
    let result := SignalDecoder.decode processed
    let eco_field := match eco_result with
      | some ctx => if ctx.isEmpty then none else some ctx
      | none => none
    .ok ({ e with process_count := count },
      { decoded := result, process_id := count, ecosystem := eco_field })

/-- The engine-level health record of `ElmerEngine.health` (uptime and version
are wall-clock/config echoes no claim observes). -/
structure EngineHealth where
  status : String
  process_count : Nat
  sockets : HealthReport
  ecosystem : Option (Dict PyVal)

/-- `ElmerEngine.health`: composes the manager's health report and collaborator
stats under a top-level status that is `healthy` when started and `offline`
otherwise. -/
def ElmerEngine.health (e : ElmerEngine) : EngineHealth :=
  { status := if e.started then "healthy" else "offline"
    process_count := e.process_count
    sockets := e.socket_manager.health_report
    ecosystem := e.ecosystem.map NGEco.stats }

/-- Whether an `Except` computation succeeded (a `process` call that did not raise). -/
def exceptOk {ε α : Type} : Except ε α → Bool
  | .ok _ => true
  | .error _ => false

/-- The type bucket `route_signal` scans for a signal: the `_type_index` entry
for the signal's declared type, empty when absent. -/
def routeBucket (m : SocketManager) (signal : SubstrateSignal) : List String :=
  (dictLookup m.type_index signal.signal_type.value).getD []

/-- A registry operation: a `register` or an `unregister` call. -/
inductive ManagerOp where
  | reg : Socket → ManagerOp
  | unreg : String → ManagerOp

/-- Apply one operation as a caller would: a `register` that raises leaves the
manager unchanged (both checks precede any mutation in the source). -/
def applyOp (m : SocketManager) : ManagerOp → SocketManager
  | .reg socket =>
      match m.register socket with
      | .ok m2 => m2
      | .error _ => m
  | .unreg sid => m.unregister sid

/-- Apply a sequence of register/unregister operations in order. -/
def applyOps (m : SocketManager) : List ManagerOp → SocketManager
  | [] => m
  | op :: rest => applyOps (applyOp m op) rest

/-- Mutual consistency of the primary registry and the type index, together
with the dict-model well-formedness (unique keys) both structures enjoy:
every id in a bucket is registered with that bucket's type, and every
registered id occurs exactly once in the bucket of its own type. -/
def ManagerInv (m : SocketManager) : Prop :=
  (dictKeys m.sockets).Nodup ∧
  (dictKeys m.type_index).Nodup ∧
  (∀ sid sock, dictLookup m.sockets sid = some sock →
      ∃ bucket, dictLookup m.type_index sock.socket_type = some bucket ∧
        bucket.count sid = 1) ∧
  (∀ t bucket, dictLookup m.type_index t = some bucket →
      ∀ sid ∈ bucket, ∃ sock, dictLookup m.sockets sid = some sock ∧
        sock.socket_type = t)

/-- A connected sensory socket whose `process` always raises (counterexample
material for the routing-failure policy). -/
def flakySocket : Socket :=
  { socket_id := "elmer:flaky"
    socket_type := "sensory"
    connected := true
    connect_ok := true
    processFn := fun _ _ => .error "flaky processing failure"
    healthFn := fun _ => .ok [("status", "degraded")] }

/-- A second connected sensory socket whose `process` succeeds and stamps its
own id as the source. -/
def backupSocket : Socket :=
  { socket_id := "elmer:backup"
    socket_type := "sensory"
    connected := true
    connect_ok := true
    processFn := fun c signal =>
      if !c then .error "backup not connected"
      else .ok (signal.with_updates "elmer:backup" signal.metadata)
    healthFn := fun _ => .ok [("status", "healthy")] }

/-- A socket whose `connect()` cannot acquire resources. -/
def brokenSocket : Socket :=
  { socket_id := "elmer:broken"
    socket_type := "inference"
    connected := false
    connect_ok := false
    processFn := fun _ _ => .error "broken"
    healthFn := fun _ => .error "hardware probe failed" }

/-- A manager holding the flaky socket and then the backup socket in the same
`sensory` bucket, built through `register` itself. -/
def twoSensoryMgr : SocketManager :=
  applyOps (SocketManager.init 16) [.reg flakySocket, .reg backupSocket]

/-- A concrete sensory signal. -/
def exSignal : SubstrateSignal :=
  SubstrateSignal.create "sig-0001" 1700000000 "test:input" .sensory
    [("text", .vStr "route me")] 1 5 []

/-- A concrete memory signal (no memory socket is ever registered here). -/
def memSignal : SubstrateSignal :=
  SubstrateSignal.create "sig-0002" 1700000001 "test:input" .memory
    [("query", .vStr "something")] 1 5 []

/-- A fixed hardware detection outcome. -/
def cpuOnlyHw : Hardware :=
  { cpu_cores := 4, gpu_available := false, npu_available := false }

/-- A second, different detection outcome (to observe caching). -/
def gpuHw : Hardware :=
  { cpu_cores := 8, gpu_available := true, npu_available := false }

/-- The default manager after registering both Phase-1 sockets and connecting
them, as `ElmerEngine.start` does. -/
def startedMgr : SocketManager :=
  (applyOps (SocketManager.init 16)
    [.reg comprehensionSocket, .reg monitoringSocket]).connect_all cpuOnlyHw
    |>.1

/-- A manager with one healthy (connected) and one offline (disconnected)
socket — the mixed row of the health matrix. -/
def mixedMgr : SocketManager :=
  applyOps (SocketManager.init 16)
    [.reg comprehensionSocket, .reg monitoringSocket]

/-- `mixedMgr` with the comprehension socket connected by hand (only
`connect_all` connects in the source, and it connects everything, so the mixed
state is reached by a socket-level `connect`). -/
def mixedConnectedMgr : SocketManager :=
  { mixedMgr with
      sockets :=
        [("elmer:comprehension", { comprehensionSocket with connected := true }),
         ("elmer:monitoring", monitoringSocket)] }

/-- A registry with the two default sockets plus the unconnectable one. -/
def threeSocketMgr : SocketManager :=
  applyOps (SocketManager.init 16)
    [.reg comprehensionSocket, .reg brokenSocket, .reg monitoringSocket]

/-- A started engine over the connected default manager, standalone mode. -/
def startedEngine : ElmerEngine :=
  { socket_manager := startedMgr
    graph_encoder := { embedFn := fun _ => [] }
    ecosystem := none
    started := true
    process_count := 0 }

/-- An engine that is started while every registered socket is disconnected
(their health statuses all report offline). -/
def startedOfflineEngine : ElmerEngine :=
  { socket_manager := mixedMgr
    graph_encoder := { embedFn := fun _ => [] }
    ecosystem := none
    started := true
    process_count := 3 }

/-- A capacity-1 manager already holding the comprehension socket: the
duplicate-registration and capacity-exceeded scenarios both start here. -/
def oneSockMgr : SocketManager :=
  applyOp (SocketManager.init 1) (.reg comprehensionSocket)

/-- An encoder with a trivial embedding backend (the backend is opaque to every
property checked here). -/
def testEncoder : GraphEncoder :=
  { embedFn := fun _ => [] }

/-- A signal whose payload carries a string under the `text` key. -/
def plainSignal : SubstrateSignal :=
  SubstrateSignal.create "sig-0003" 1700000002 "test:input" .sensory
    [("text", .vStr "hello world")] 1 5 []

/-- A signal whose payload has none of the four representative-text keys. -/
def noTextSignal : SubstrateSignal :=
  SubstrateSignal.create "sig-0004" 1700000003 "test:input" .sensory
    [("data", .vInt 7)] 1 5 []

theorem dictLookup_insert_self {α : Type} (d : Dict α) (k : String) (v : α) :
    dictLookup (dictInsert d k v) k = some v := by
  induction d with
  | nil => simp [dictInsert, dictLookup]
  | cons p rest ih =>
      obtain ⟨k0, v0⟩ := p
      by_cases h : k0 = k
      · simp [dictInsert, h, dictLookup]
      · simp [dictInsert, h, dictLookup, ih]

theorem dictLookup_insert_ne {α : Type} (d : Dict α) (k : String) (v : α)
    (k' : String) (h : k' ≠ k) :
    dictLookup (dictInsert d k v) k' = dictLookup d k' := by
  induction d with
  | nil =>
      simp [dictInsert, dictLookup]
      intro hk
      exact absurd hk.symm h
  | cons p rest ih =>
      obtain ⟨k0, v0⟩ := p
      by_cases h0 : k0 = k
      · subst h0
        simp [dictInsert, dictLookup, Ne.symm h]
      · simp [dictInsert, h0, dictLookup, ih]

theorem mem_dictKeys_iff {α : Type} (d : Dict α) (k : String) :
    k ∈ dictKeys d ↔ dictContains d k = true := by
  induction d with
  | nil => simp [dictKeys, dictContains, dictLookup]
  | cons p rest ih =>
      obtain ⟨k0, v0⟩ := p
      by_cases h : k0 = k
      · simp [dictKeys, dictContains, dictLookup, h]
      · simp [dictKeys, dictContains, dictLookup, h, Ne.symm h] at ih ⊢
        exact ih

theorem dictLookup_eq_none_of_not_contains {α : Type} (d : Dict α) (k : String)
    (h : dictContains d k = false) : dictLookup d k = none := by
  unfold dictContains at h
  cases e : dictLookup d k with
  | none => rfl
  | some v => rw [e] at h; simp at h

theorem dictKeys_insert_new {α : Type} (d : Dict α) (k : String) (v : α)
    (h : dictContains d k = false) :
    dictKeys (dictInsert d k v) = dictKeys d ++ [k] := by
  induction d with
  | nil => simp [dictInsert, dictKeys]
  | cons p rest ih =>
      obtain ⟨k0, v0⟩ := p
      by_cases h0 : k0 = k
      · subst h0
        simp [dictContains, dictLookup] at h
      · have h1 : dictContains rest k = false := by
          simpa [dictContains, dictLookup, h0] using h
        simp only [dictInsert, if_neg h0, dictKeys, List.map]
        simpa [dictKeys] using ih h1

theorem dictKeys_insert_mem {α : Type} (d : Dict α) (k : String) (v : α)
    (h : dictContains d k = true) :
    dictKeys (dictInsert d k v) = dictKeys d := by
  induction d with
  | nil => simp [dictContains, dictLookup] at h
  | cons p rest ih =>
      obtain ⟨k0, v0⟩ := p
      by_cases h0 : k0 = k
      · simp [dictInsert, h0, dictKeys]
      · have h1 : dictContains rest k = true := by
          simpa [dictContains, dictLookup, h0] using h
        simp only [dictInsert, if_neg h0, dictKeys, List.map]
        simpa [dictKeys] using ih h1

theorem nodup_dictKeys_insert {α : Type} (d : Dict α) (k : String) (v : α)
    (h : (dictKeys d).Nodup) : (dictKeys (dictInsert d k v)).Nodup := by
  by_cases hc : dictContains d k = true
  · rw [dictKeys_insert_mem d k v hc]; exact h
  · rw [dictKeys_insert_new d k v (by simpa using hc)]
    rw [List.nodup_append]
    refine ⟨h, List.nodup_singleton k, ?_⟩
    intro a ha hb
    simp at hb
    subst hb
    exact hc ((mem_dictKeys_iff d a).1 ha)

theorem dictLookup_pop_ne {α : Type} (d : Dict α) (k k' : String) (h : k' ≠ k) :
    dictLookup (dictPop d k) k' = dictLookup d k' := by
  induction d with
  | nil => simp [dictPop]
  | cons p rest ih =>
      obtain ⟨k0, v0⟩ := p
      by_cases h0 : k0 = k
      · subst h0
        simp [dictPop, dictLookup, Ne.symm h]
      · simp [dictPop, h0, dictLookup, ih]

theorem dictKeys_pop_sublist {α : Type} (d : Dict α) (k : String) :
    (dictKeys (dictPop d k)).Sublist (dictKeys d) := by
  induction d with
  | nil => simp [dictPop, dictKeys]
  | cons p rest ih =>
      obtain ⟨k0, v0⟩ := p
      by_cases h0 : k0 = k
      · simp only [dictPop, if_pos h0, dictKeys, List.map]
        exact List.sublist_cons_self k0 (List.map Prod.fst rest)
      · simp only [dictPop, if_neg h0, dictKeys, List.map]
        exact List.Sublist.cons₂ k0 ih

theorem dictLookup_pop_self {α : Type} (d : Dict α) (k : String)
    (h : (dictKeys d).Nodup) : dictLookup (dictPop d k) k = none := by
  induction d with
  | nil => simp [dictPop, dictLookup]
  | cons p rest ih =>
      obtain ⟨k0, v0⟩ := p
      have h' := List.nodup_cons.mp h
      by_cases h0 : k0 = k
      · subst h0
        have hrest : dictPop ((k0, v0) :: rest) k0 = rest := by simp [dictPop]
        rw [hrest]
        apply dictLookup_eq_none_of_not_contains
        cases e : dictContains rest k0 with
        | false => rfl
        | true => exact absurd ((mem_dictKeys_iff rest k0).2 e) h'.1
      · have hrest : dictPop ((k0, v0) :: rest) k = (k0, v0) :: dictPop rest k := by
          simp [dictPop, h0]
        rw [hrest]
        have hstep : dictLookup ((k0, v0) :: dictPop rest k) k =
            dictLookup (dictPop rest k) k := by simp [dictLookup, h0]
        rw [hstep]
        exact ih h'.2

theorem nodup_dictKeys_pop {α : Type} (d : Dict α) (k : String)
    (h : (dictKeys d).Nodup) : (dictKeys (dictPop d k)).Nodup :=
  (dictKeys_pop_sublist d k).nodup h

theorem route_signal_eq_scan (m : SocketManager) (s : SubstrateSignal) :
    m.route_signal s = routeScan m.sockets s (routeBucket m s) := rfl

theorem routeScan_skip (sockets : Dict Socket) (signal : SubstrateSignal)
    (pre rest : List String)
    (h : ∀ sid ∈ pre, ∀ sock, dictLookup sockets sid = some sock →
        sock.connected = true →
        exceptOk (sock.processFn sock.connected signal) = false) :
    routeScan sockets signal (pre ++ rest) = routeScan sockets signal rest := by
  induction pre with
  | nil => rfl
  | cons sid pre ih =>
      have hhead := h sid (by simp)
      have htail : ∀ sid' ∈ pre, ∀ sock, dictLookup sockets sid' = some sock →
          sock.connected = true →
          exceptOk (sock.processFn sock.connected signal) = false := by
        intro sid' hm
        exact h sid' (by simp [hm])
      simp only [List.cons_append, routeScan]
      cases e : dictLookup sockets sid with
      | none => exact ih htail
      | some sock =>
          cases hc : sock.connected with
          | false =>
              simp [hc]
              exact ih htail
          | true =>
              have hfail := hhead sock e hc
              rw [hc] at hfail
              cases ep : sock.processFn true signal with
              | ok r => rw [ep] at hfail; simp [exceptOk] at hfail
              | error msg =>
                  simp [hc, ep]
                  exact ih htail

theorem routeScan_passthrough (sockets : Dict Socket) (signal : SubstrateSignal)
    (bucket : List String)
    (h : ∀ sid ∈ bucket, ∀ sock, dictLookup sockets sid = some sock →
        sock.connected = true →
        exceptOk (sock.processFn sock.connected signal) = false) :
    routeScan sockets signal bucket = signal := by
  have := routeScan_skip sockets signal bucket [] (by simpa using h)
  simpa using this

/-- C1 counterexample: with two connected sockets in the `sensory` bucket, the
first of which raises from `process`, `route_signal` does NOT return the
original signal — the loop body's `except` clause has no break, so the scan
continues and the second candidate processes the signal (its id is stamped as
the source of the result). -/
theorem claim_c1_counterexample :
    twoSensoryMgr.route_signal exSignal ≠ exSignal ∧
    (twoSensoryMgr.route_signal exSignal).source_socket = "elmer:backup" := by
  constructor
  · decide
  · rfl

/-- C1 (amended): when the first connected socket in the bucket raises from
`process`, the failure is caught and logged and the scan CONTINUES with the
remaining candidates of the bucket; the original signal is returned unchanged
only when every connected socket in the bucket fails (or none is connected). -/
theorem claim_c1_failure_continues_scan (m : SocketManager) (s : SubstrateSignal) :
    ((∀ sid ∈ routeBucket m s, ∀ sock, dictLookup m.sockets sid = some sock →
        sock.connected = true →
        exceptOk (sock.processFn sock.connected s) = false) →
      m.route_signal s = s) ∧
    (∀ pre sid rest sock, routeBucket m s = pre ++ sid :: rest →
      (∀ sid' ∈ pre, ∀ sock', dictLookup m.sockets sid' = some sock' →
          sock'.connected = true →
          exceptOk (sock'.processFn sock'.connected s) = false) →
      dictLookup m.sockets sid = some sock →
      sock.connected = true →
      exceptOk (sock.processFn sock.connected s) = false →
      m.route_signal s = routeScan m.sockets s rest) := by
  constructor
  · intro h
    rw [route_signal_eq_scan]
    exact routeScan_passthrough m.sockets s (routeBucket m s) h
  · intro pre sid rest sock hbucket hpre hsock hconn hfail
    rw [route_signal_eq_scan, hbucket, routeScan_skip m.sockets s pre _ hpre]
    rw [hconn] at hfail
    simp only [routeScan, hsock, hconn]
    cases ep : sock.processFn true s with
    | ok r => rw [ep] at hfail; simp [exceptOk] at hfail
    | error msg => simp [ep]

/-- Witness for C1 (amended): in the two-socket bucket the flaky socket's
failure hands the very same signal to the rest of the bucket. -/
theorem claim_c1_witness :
    twoSensoryMgr.route_signal exSignal =
      routeScan twoSensoryMgr.sockets exSignal ["elmer:backup"] :=
  (claim_c1_failure_continues_scan twoSensoryMgr exSignal).2 [] "elmer:flaky"
    ["elmer:backup"] flakySocket rfl (fun _ h => nomatch h) rfl rfl rfl

/-- C2: a signal whose type bucket is empty or contains no currently-connected
socket is returned itself, field-wise identical to the input. -/
theorem claim_c2_passthrough (m : SocketManager) (s : SubstrateSignal)
    (h : ∀ sid ∈ routeBucket m s, ∀ sock, dictLookup m.sockets sid = some sock →
        sock.connected = false) :
    m.route_signal s = s := by
  rw [route_signal_eq_scan]
  apply routeScan_passthrough
  intro sid hm sock hl hc
  rw [h sid hm sock hl] at hc
  exact absurd hc (by simp)

/-- Witness for C2: routing a MEMORY signal through a manager with only
sensory sockets (the bucket is empty) returns the input signal. -/
theorem claim_c2_witness :
    twoSensoryMgr.route_signal memSignal = memSignal :=
  claim_c2_passthrough twoSensoryMgr memSignal (fun _ h => nomatch h)

/-- C3: the bucket is scanned in registration order; ids before the first
connected socket are skipped; the first connected socket — here the
comprehension socket, whose `process` always succeeds while connected —
receives the signal, and the result's source socket equals that socket's id. -/
theorem claim_c3_first_connected_delivery (m : SocketManager)
    (s : SubstrateSignal) (pre rest : List String) (sid : String) (sock : Socket)
    (hbucket : routeBucket m s = pre ++ sid :: rest)
    (hpre : ∀ sid' ∈ pre, ∀ sock', dictLookup m.sockets sid' = some sock' →
        sock'.connected = false)
    (hsock : dictLookup m.sockets sid = some sock)
    (hconn : sock.connected = true)
    (hproc : sock.processFn = comprehensionProcess)
    (hid : sock.socket_id = "elmer:comprehension") :
    (m.route_signal s).source_socket = sock.socket_id := by
  have hpre' : ∀ sid' ∈ pre, ∀ sock', dictLookup m.sockets sid' = some sock' →
      sock'.connected = true →
      exceptOk (sock'.processFn sock'.connected s) = false := by
    intro sid' hm sock' hl hc
    rw [hpre sid' hm sock' hl] at hc
    exact absurd hc (by simp)
  rw [route_signal_eq_scan, hbucket, routeScan_skip m.sockets s pre _ hpre']
  simp only [routeScan, hsock, hconn, if_true, hproc, comprehensionProcess]
  rw [hid]
  rfl

/-- Witness for C3: the started default manager routes a SENSORY signal to the
connected comprehension socket, which stamps its id as the source. -/
theorem claim_c3_witness :
    (startedMgr.route_signal exSignal).source_socket = "elmer:comprehension" :=
  claim_c3_first_connected_delivery startedMgr exSignal [] []
    "elmer:comprehension" { comprehensionSocket with connected := true }
    rfl (fun _ h => nomatch h) rfl rfl rfl rfl

/-- C4: `register` raises the duplicate-id error when the id is already
registered and the capacity error when the registry is full — both checks
precede any mutation, so a failing call yields no new state — and on success
the registry gains exactly the new binding at the end and the id is appended
to its type bucket, preserving insertion order. -/
theorem claim_c4_register (m : SocketManager) (sock : Socket) :
    (dictContains m.sockets sock.socket_id = true →
      m.register sock = .error ("Socket already registered: " ++ sock.socket_id)) ∧
    (dictContains m.sockets sock.socket_id = false →
      m.sockets.length ≥ m.max_sockets →
      m.register sock = .error ("Socket limit reached (" ++
        toString m.max_sockets ++ "). " ++ "Cannot register " ++ sock.socket_id)) ∧
    (dictContains m.sockets sock.socket_id = false →
      m.sockets.length < m.max_sockets →
      ∃ m2, m.register sock = .ok m2 ∧
        dictLookup m2.sockets sock.socket_id = some sock ∧
        dictKeys m2.sockets = dictKeys m.sockets ++ [sock.socket_id] ∧
        dictLookup m2.type_index sock.socket_type =
          some ((dictLookup m.type_index sock.socket_type).getD [] ++
            [sock.socket_id])) := by
  refine ⟨?_, ?_, ?_⟩
  · intro h
    simp [SocketManager.register, h]
  · intro h hlen
    simp [SocketManager.register, h, hlen]
  · intro h hlt
    have hge : ¬m.sockets.length ≥ m.max_sockets := not_le.mpr hlt
    refine ⟨{ m with
        sockets := dictInsert m.sockets sock.socket_id sock,
        type_index := dictInsert m.type_index sock.socket_type
          ((dictLookup m.type_index sock.socket_type).getD [] ++
            [sock.socket_id]) }, ?_, ?_, ?_, ?_⟩
    · simp [SocketManager.register, h, hge]
    · exact dictLookup_insert_self m.sockets sock.socket_id sock
    · exact dictKeys_insert_new m.sockets sock.socket_id sock h
    · exact dictLookup_insert_self m.type_index sock.socket_type _

/-- Witness for C4: on a capacity-1 manager, re-registering the comprehension
socket fails with the duplicate error, registering a second socket fails with
the capacity error, and the original registration inserted into both
structures. -/
theorem claim_c4_witness :
    oneSockMgr.register comprehensionSocket =
      .error "Socket already registered: elmer:comprehension" ∧
    oneSockMgr.register monitoringSocket =
      .error "Socket limit reached (1). Cannot register elmer:monitoring" ∧
    ∃ m2, (SocketManager.init 1).register comprehensionSocket = .ok m2 ∧
      dictLookup m2.sockets "elmer:comprehension" = some comprehensionSocket ∧
      dictKeys m2.sockets = ["elmer:comprehension"] ∧
      dictLookup m2.type_index "sensory" = some ["elmer:comprehension"] := by
  refine ⟨?_, ?_, ?_⟩
  · exact (claim_c4_register oneSockMgr comprehensionSocket).1 rfl
  · exact (claim_c4_register oneSockMgr monitoringSocket).2.1 rfl (by decide)
  · exact (claim_c4_register (SocketManager.init 1) comprehensionSocket).2.2
      rfl (by decide)

theorem healthEntries_snd_eq_nil_iff (sockets : Dict Socket) :
    (healthEntries sockets).2 = [] ↔ sockets = [] := by
  cases sockets with
  | nil => simp [healthEntries]
  | cons p rest =>
      obtain ⟨sid, sock⟩ := p
      constructor
      · intro h
        cases e : sock.healthFn sock.connected with
        | ok hd => simp [healthEntries, e] at h
        | error msg => simp [healthEntries, e] at h
      · intro h
        exact absurd h (by simp)

/-- C6: the overall health status is `no_sockets` exactly on the empty registry
(never conflated with `healthy`), and on a nonempty registry it is `healthy`
iff every reported per-socket status is healthy, `offline` iff every reported
status is offline-or-error, and `degraded` in every remaining mixed
combination. -/
theorem claim_c6_overall_status (m : SocketManager) :
    (m.sockets = [] →
      m.health_report.status = "no_sockets" ∧
      m.health_report.status ≠ "healthy") ∧
    (m.sockets ≠ [] →
      (m.health_report.status = "healthy" ↔
        ∀ st ∈ (healthEntries m.sockets).2, st = "healthy") ∧
      (m.health_report.status = "offline" ↔
        ∀ st ∈ (healthEntries m.sockets).2, st = "offline" ∨ st = "error") ∧
      (m.health_report.status = "degraded" ↔
        (¬∀ st ∈ (healthEntries m.sockets).2, st = "healthy") ∧
        ¬∀ st ∈ (healthEntries m.sockets).2,
          st = "offline" ∨ st = "error")) := by
  constructor
  · intro h
    have hs : m.health_report.status = "no_sockets" := by
      simp [SocketManager.health_report, h, healthEntries]
    exact ⟨hs, by rw [hs]; decide⟩
  · intro hne
    have hsts : (healthEntries m.sockets).2 ≠ [] :=
      fun hnil => hne ((healthEntries_snd_eq_nil_iff m.sockets).1 hnil)
    have hie : (healthEntries m.sockets).2.isEmpty = false := by
      cases e : (healthEntries m.sockets).2 with
      | nil => exact absurd e hsts
      | cons a l => rfl
    obtain ⟨st0, hst0⟩ : ∃ st0, st0 ∈ (healthEntries m.sockets).2 := by
      cases e : (healthEntries m.sockets).2 with
      | nil => exact absurd e hsts
      | cons a l => exact ⟨a, by simp [e]⟩
    have hstatus : m.health_report.status =
        (if (healthEntries m.sockets).2.all (fun s => s == "healthy")
          then "healthy"
         else if (healthEntries m.sockets).2.all
            (fun s => s == "offline" || s == "error")
          then "offline"
         else "degraded") := by
      simp [SocketManager.health_report, hie]
    by_cases h1 : (healthEntries m.sockets).2.all (fun s => s == "healthy") = true
    · have hall1 : ∀ st ∈ (healthEntries m.sockets).2, st = "healthy" := by
        intro st hmem
        have := List.all_eq_true.mp h1 st hmem
        simpa using this
      have hnot2 : ¬∀ st ∈ (healthEntries m.sockets).2,
          st = "offline" ∨ st = "error" := by
        intro hall2
        have h0 := hall1 st0 hst0
        rcases hall2 st0 hst0 with h | h <;> rw [h0] at h <;>
          exact absurd h (by decide)
      rw [hstatus, if_pos h1]
      refine ⟨⟨fun _ => hall1, fun _ => rfl⟩, ⟨?_, ?_⟩, ⟨?_, ?_⟩⟩
      · intro h; exact absurd h (by decide)
      · intro h2; exact absurd h2 hnot2
      · intro h; exact absurd h (by decide)
      · intro hcon; exact absurd hall1 hcon.1
    · have hnot1 : ¬∀ st ∈ (healthEntries m.sockets).2, st = "healthy" := by
        intro hall
        exact h1 (List.all_eq_true.mpr (fun st hm => by simp [hall st hm]))
      by_cases h2 : (healthEntries m.sockets).2.all
          (fun s => s == "offline" || s == "error") = true
      · have hall2 : ∀ st ∈ (healthEntries m.sockets).2,
            st = "offline" ∨ st = "error" := by
          intro st hmem
          have := List.all_eq_true.mp h2 st hmem
          simpa using this
        rw [hstatus, if_neg (by simp [h1]), if_pos h2]
        refine ⟨⟨?_, ?_⟩, ⟨fun _ => hall2, fun _ => rfl⟩, ⟨?_, ?_⟩⟩
        · intro h; exact absurd h (by decide)
        · intro hall; exact absurd hall hnot1
        · intro h; exact absurd h (by decide)
        · intro hcon; exact absurd hall2 hcon.2
      · have hnot2 : ¬∀ st ∈ (healthEntries m.sockets).2,
            st = "offline" ∨ st = "error" := by
          intro hall
          exact h2 (List.all_eq_true.mpr (fun st hm => by
            rcases hall st hm with h | h <;> simp [h]))
        rw [hstatus, if_neg (by simp [h1]), if_neg (by simp [h2])]
        refine ⟨⟨?_, ?_⟩, ⟨?_, ?_⟩, ⟨fun _ => ⟨hnot1, hnot2⟩, fun _ => rfl⟩⟩
        · intro h; exact absurd h (by decide)
        · intro hall; exact absurd hall hnot1
        · intro h; exact absurd h (by decide)
        · intro hall; exact absurd hall hnot2

/-- Witness for C6: with one healthy (connected) and one offline (disconnected)
socket, the overall status is `degraded`. -/
theorem claim_c6_witness : mixedConnectedMgr.health_report.status = "degraded" := by
  have h := (claim_c6_overall_status mixedConnectedMgr).2
    (by simp [mixedConnectedMgr, mixedMgr])
  exact h.2.2.mpr ⟨by decide, by decide⟩

theorem connectList_results_keys (l : Dict Socket) :
    (connectList l).2.map Prod.fst = dictKeys l := by
  induction l with
  | nil => rfl
  | cons p rest ih =>
      obtain ⟨sid, sock⟩ := p
      cases e : sock.connect with
      | ok sock2 => simp [connectList, e, dictKeys] at ih ⊢; exact ih
      | error msg => simp [connectList, e, dictKeys] at ih ⊢; exact ih

theorem connectList_lookup (l : Dict Socket) (sid : String) (sock : Socket)
    (h : dictLookup l sid = some sock) :
    dictLookup (connectList l).2 sid =
      some (sock.connected || sock.connect_ok) ∧
    ∃ sock2, dictLookup (connectList l).1 sid = some sock2 ∧
      sock2.connected = (sock.connected || sock.connect_ok) := by
  induction l with
  | nil => simp [dictLookup] at h
  | cons p rest ih =>
      obtain ⟨k, v⟩ := p
      by_cases hk : k = sid
      · subst hk
        have hv : v = sock := by
          simpa [dictLookup] using h
        subst hv
        cases hv1 : v.connected with
        | true =>
            have he : v.connect = .ok v := by
              simp [Socket.connect, hv1]
            refine ⟨?_, v, ?_, ?_⟩ <;>
              simp [connectList, he, dictLookup, hv1]
        | false =>
            cases hv2 : v.connect_ok with
            | true =>
                have he : v.connect = .ok { v with connected := true } := by
                  simp [Socket.connect, hv1, hv2]
                refine ⟨?_, { v with connected := true }, ?_, ?_⟩ <;>
                  simp [connectList, he, dictLookup, hv1, hv2]
            | false =>
                have he : v.connect = .error ("Failed to connect " ++ v.socket_id) := by
                  simp [Socket.connect, hv1, hv2]
                refine ⟨?_, v, ?_, ?_⟩ <;>
                  simp [connectList, he, dictLookup, hv1, hv2]
      · have h' : dictLookup rest sid = some sock := by
          simpa [dictLookup, hk] using h
        have ihr := ih h'
        cases e : v.connect with
        | ok sock2 =>
            constructor
            · simpa [connectList, e, dictLookup, hk] using ihr.1
            · obtain ⟨s2, hs2, hc2⟩ := ihr.2
              exact ⟨s2, by simpa [connectList, e, dictLookup, hk] using hs2, hc2⟩
        | error msg =>
            constructor
            · simpa [connectList, e, dictLookup, hk] using ihr.1
            · obtain ⟨s2, hs2, hc2⟩ := ihr.2
              exact ⟨s2, by simpa [connectList, e, dictLookup, hk] using hs2, hc2⟩

/-- C7: `connect_all` runs hardware detection only when no cached result exists
(a second call reuses the first detection and ignores the new probe), attempts
`connect()` on every registered socket independently, and returns exactly one
boolean outcome per registered socket — `true` exactly for the sockets that
ended up connected (one socket's failure never prevents the others). -/
theorem claim_c7_connect_all (m : SocketManager) (d1 d2 : Hardware)
    (hw : m.hardware = none) :
    (m.connect_all d1).1.hardware = some d1 ∧
    ((m.connect_all d1).1.connect_all d2).1.hardware = some d1 ∧
    (m.connect_all d1).2.map Prod.fst = dictKeys m.sockets ∧
    (∀ sid sock, dictLookup m.sockets sid = some sock →
      dictLookup (m.connect_all d1).2 sid =
        some (sock.connected || sock.connect_ok) ∧
      ∃ sock2, dictLookup (m.connect_all d1).1.sockets sid = some sock2 ∧
        sock2.connected = (sock.connected || sock.connect_ok)) := by
  refine ⟨?_, ?_, ?_, ?_⟩
  · simp [SocketManager.connect_all, hw]
  · simp [SocketManager.connect_all, hw]
  · exact connectList_results_keys m.sockets
  · intro sid sock h
    exact connectList_lookup m.sockets sid sock h

/-- Witness for C7: over three registered sockets, one of which cannot acquire
its resources, the failing one maps to `false`, the others to `true` and they
end connected; detection from the first call is cached across a second call. -/
theorem claim_c7_witness :
    (threeSocketMgr.connect_all cpuOnlyHw).1.hardware = some cpuOnlyHw ∧
    ((threeSocketMgr.connect_all cpuOnlyHw).1.connect_all gpuHw).1.hardware =
      some cpuOnlyHw ∧
    dictLookup (threeSocketMgr.connect_all cpuOnlyHw).2 "elmer:broken" =
      some false ∧
    dictLookup (threeSocketMgr.connect_all cpuOnlyHw).2 "elmer:comprehension" =
      some true ∧
    ∃ sock2,
      dictLookup (threeSocketMgr.connect_all cpuOnlyHw).1.sockets
        "elmer:monitoring" = some sock2 ∧
      sock2.connected = true := by
  have h := claim_c7_connect_all threeSocketMgr cpuOnlyHw gpuHw rfl
  refine ⟨h.1, h.2.1, ?_, ?_, ?_⟩
  · exact (h.2.2.2 "elmer:broken" brokenSocket rfl).1
  · exact (h.2.2.2 "elmer:comprehension" comprehensionSocket rfl).1
  · exact (h.2.2.2 "elmer:monitoring" monitoringSocket rfl).2

theorem process_text_ok (e : ElmerEngine) (t sid : String) (ts : Int)
    (h : e.started = true) :
    ∃ o, e.process_text t sid ts =
      .ok ({ e with process_count := e.process_count + 1 }, o) ∧
      o.process_id = e.process_count + 1 := by
  simp only [ElmerEngine.process_text, h, Bool.not_true, Bool.false_eq_true,
    if_false]
  exact ⟨_, rfl, rfl⟩

/-- C8: `process_text` raises the not-started error until `start()` has
completed; on a started engine every call succeeds, stamps the incremented
per-engine counter onto the result, and two consecutive calls produce process
ids that differ by exactly one. -/
theorem claim_c8_process_text (e : ElmerEngine) (t1 t2 sid1 sid2 : String)
    (ts1 ts2 : Int) :
    (e.started = false →
      e.process_text t1 sid1 ts1 =
        .error "Engine not started. Call start() first.") ∧
    (e.started = true →
      ∃ e1 o1 e2 o2,
        e.process_text t1 sid1 ts1 = .ok (e1, o1) ∧
        o1.process_id = e.process_count + 1 ∧
        e1.process_text t2 sid2 ts2 = .ok (e2, o2) ∧
        o2.process_id = o1.process_id + 1) := by
  constructor
  · intro h
    simp [ElmerEngine.process_text, h]
  · intro h
    obtain ⟨o1, h1, hid1⟩ := process_text_ok e t1 sid1 ts1 h
    obtain ⟨o2, h2, hid2⟩ :=
      process_text_ok { e with process_count := e.process_count + 1 }
        t2 sid2 ts2 h
    refine ⟨_, o1, _, o2, h1, hid1, h2, ?_⟩
    rw [hid2, hid1]

/-- Witness for C8: on a freshly started engine the first call returns process
id 1 and the second call's id exceeds the first by one. -/
theorem claim_c8_witness :
    ∃ e1 o1 e2 o2,
      startedEngine.process_text "hi" "sig-a" 1 = .ok (e1, o1) ∧
      o1.process_id = 1 ∧
      e1.process_text "hello again" "sig-b" 2 = .ok (e2, o2) ∧
      o2.process_id = o1.process_id + 1 :=
  (claim_c8_process_text startedEngine "hi" "hello again" "sig-a" "sig-b"
    1 2).2 rfl

theorem extractLoop_skip (payload : Dict PyVal) (pre rest : List String)
    (h : ∀ k ∈ pre, ∀ s, dictLookup payload k ≠ some (.vStr s)) :
    extractLoop payload (pre ++ rest) = extractLoop payload rest := by
  induction pre with
  | nil => rfl
  | cons k pre ih =>
      have htail : ∀ k2 ∈ pre, ∀ s, dictLookup payload k2 ≠ some (.vStr s) := by
        intro k2 hm
        exact h k2 (by simp [hm])
      simp only [List.cons_append, extractLoop]
      cases e : dictLookup payload k with
      | none => exact ih htail
      | some v =>
          cases v with
          | vStr s => exact absurd e (h k (by simp) s)
          | vInt n => exact ih htail
          | vBool b => exact ih htail
          | vOther s => exact ih htail

/-- C9: `encode` derives the target id as `"{type}:{source_socket}"` and embeds
the representative text found by `_extract_text`, which checks the payload keys
`text`, `content`, `message`, `query` in that fixed order — taking the first
key present with a string value — and falls back to the `str()` rendering of
the whole payload when no such key exists. -/
theorem claim_c9_encode (enc : GraphEncoder) (signal : SubstrateSignal) :
    (enc.encode signal).target_id =
      signal.signal_type.value ++ ":" ++ signal.source_socket ∧
    (enc.encode signal).embedding =
      enc.embedFn (GraphEncoder.extract_text signal) ∧
    (∀ pre key post s,
      ["text", "content", "message", "query"] = pre ++ key :: post →
      (∀ k ∈ pre, ∀ t, dictLookup signal.payload k ≠ some (.vStr t)) →
      dictLookup signal.payload key = some (.vStr s) →
      GraphEncoder.extract_text signal = s) ∧
    ((∀ k ∈ ["text", "content", "message", "query"], ∀ t,
        dictLookup signal.payload k ≠ some (.vStr t)) →
      GraphEncoder.extract_text signal = pyStrDict signal.payload) := by
  refine ⟨rfl, rfl, ?_, ?_⟩
  · intro pre key post s hkeys hpre hkey
    unfold GraphEncoder.extract_text
    rw [hkeys, extractLoop_skip signal.payload pre (key :: post) hpre]
    simp [extractLoop, hkey]
  · intro h
    unfold GraphEncoder.extract_text
    have := extractLoop_skip signal.payload
      ["text", "content", "message", "query"] [] h
    simpa [extractLoop] using this

/-- Witness for C9: the target id is the type:source pair; a payload with a
string under `text` yields that string; a payload with none of the four keys
falls back to the payload rendering. -/
theorem claim_c9_witness :
    (testEncoder.encode plainSignal).target_id = "sensory:test:input" ∧
    GraphEncoder.extract_text plainSignal = "hello world" ∧
    GraphEncoder.extract_text noTextSignal = pyStrDict noTextSignal.payload := by
  refine ⟨(claim_c9_encode testEncoder plainSignal).1, ?_, ?_⟩
  · exact (claim_c9_encode testEncoder plainSignal).2.2.1 [] "text"
      ["content", "message", "query"] "hello world" rfl
      (fun _ hk => nomatch hk) rfl
  · refine (claim_c9_encode testEncoder noTextSignal).2.2.2 ?_
    intro k hk t hct
    simp [List.mem_cons] at hk
    rcases hk with rfl | rfl | rfl | rfl <;>
      simp [noTextSignal, SubstrateSignal.create, dictLookup] at hct

/-- C10: the engine-level health status is a function of the started flag
alone — `healthy` exactly when started (even if every socket reports offline
or error), `offline` exactly when not started, and never anything else
(in particular never `degraded`), whatever the composed socket report says. -/
theorem claim_c10_engine_health_status (e : ElmerEngine) :
    (e.started = true → e.health.status = "healthy") ∧
    (e.started = false → e.health.status = "offline") ∧
    (e.health.status = "healthy" ∨ e.health.status = "offline") := by
  refine ⟨?_, ?_, ?_⟩
  · intro h; simp [ElmerEngine.health, h]
  · intro h; simp [ElmerEngine.health, h]
  · cases h : e.started
    · right; simp [ElmerEngine.health, h]
    · left; simp [ElmerEngine.health, h]

/-- Witness for C10: an engine that is started while all of its sockets are
disconnected reports a top-level `healthy` even though its composed socket
report is `offline`. -/
theorem claim_c10_witness :
    startedOfflineEngine.health.status = "healthy" ∧
    startedOfflineEngine.socket_manager.health_report.status = "offline" := by
  constructor
  · exact (claim_c10_engine_health_status startedOfflineEngine).1 rfl
  · decide

theorem managerInv_init (maxS : Nat) : ManagerInv (SocketManager.init maxS) := by
  refine ⟨?_, ?_, ?_, ?_⟩
  · simp [SocketManager.init, dictKeys]
  · simp [SocketManager.init, dictKeys]
  · intro sid sock h
    simp [SocketManager.init, dictLookup] at h
  · intro t bucket h
    simp [SocketManager.init, dictLookup] at h

theorem managerInv_register (m : SocketManager) (sock : Socket)
    (m2 : SocketManager) (hInv : ManagerInv m) (h : m.register sock = .ok m2) :
    ManagerInv m2 := by
  obtain ⟨hnd1, hnd2, hreg, hbuck⟩ := hInv
  by_cases hc : dictContains m.sockets sock.socket_id = true
  · simp [SocketManager.register, hc] at h
  · have hc' : dictContains m.sockets sock.socket_id = false := by simpa using hc
    by_cases hl : m.sockets.length ≥ m.max_sockets
    · simp [SocketManager.register, hc', hl] at h
    · have hm2 : m2 = { m with
          sockets := dictInsert m.sockets sock.socket_id sock,
          type_index := dictInsert m.type_index sock.socket_type
            ((dictLookup m.type_index sock.socket_type).getD [] ++
              [sock.socket_id]) } := by
        simp [SocketManager.register, hc', hl] at h
        exact h.symm
      subst hm2
      refine ⟨?_, ?_, ?_, ?_⟩
      · exact nodup_dictKeys_insert m.sockets sock.socket_id sock hnd1
      · exact nodup_dictKeys_insert m.type_index sock.socket_type _ hnd2
      · intro sid' sock' hlook
        by_cases hs : sid' = sock.socket_id
        · rw [hs, dictLookup_insert_self] at hlook
          have hss : sock' = sock := (Option.some.inj hlook).symm
          subst hss
          rw [hs]
          refine ⟨(dictLookup m.type_index sock'.socket_type).getD [] ++
            [sock'.socket_id], dictLookup_insert_self _ _ _, ?_⟩
          have hzero : List.count sock'.socket_id
              ((dictLookup m.type_index sock'.socket_type).getD []) = 0 := by
            cases e : dictLookup m.type_index sock'.socket_type with
            | none => simp
            | some b =>
                rw [Option.getD_some, List.count_eq_zero]
                intro hmem
                obtain ⟨s3, hs3, _⟩ :=
                  hbuck sock'.socket_type b e sock'.socket_id hmem
                rw [dictLookup_eq_none_of_not_contains m.sockets
                  sock'.socket_id hc'] at hs3
                exact Option.noConfusion hs3
          rw [List.count_append, hzero, List.count_singleton]
          simp
        · rw [dictLookup_insert_ne m.sockets sock.socket_id sock sid' hs]
            at hlook
          obtain ⟨b, hb, hcount⟩ := hreg sid' sock' hlook
          by_cases hty : sock'.socket_type = sock.socket_type
          · rw [hty] at hb
            refine ⟨(dictLookup m.type_index sock.socket_type).getD [] ++
              [sock.socket_id], ?_, ?_⟩
            · rw [hty]
              exact dictLookup_insert_self _ _ _
            · rw [List.count_append, hb, Option.getD_some, hcount,
                List.count_singleton]
              simp [Ne.symm hs]
          · refine ⟨b, ?_, hcount⟩
            rw [dictLookup_insert_ne m.type_index sock.socket_type _
              sock'.socket_type hty]
            exact hb
      · intro t bucket' hlook sid' hmem
        by_cases ht : t = sock.socket_type
        · subst ht
          rw [dictLookup_insert_self] at hlook
          have hbe : bucket' = (dictLookup m.type_index sock.socket_type).getD []
              ++ [sock.socket_id] := (Option.some.inj hlook).symm
          subst hbe
          rcases List.mem_append.mp hmem with hmem1 | hmem2
          · cases e : dictLookup m.type_index sock.socket_type with
            | none => rw [e] at hmem1; simp at hmem1
            | some b =>
                rw [e, Option.getD_some] at hmem1
                obtain ⟨s3, hs3, hty3⟩ := hbuck sock.socket_type b e sid' hmem1
                have hne : sid' ≠ sock.socket_id := by
                  intro hEq
                  rw [hEq, dictLookup_eq_none_of_not_contains m.sockets
                    sock.socket_id hc'] at hs3
                  exact Option.noConfusion hs3
                exact ⟨s3, by
                  rw [dictLookup_insert_ne m.sockets sock.socket_id sock sid'
                    hne]
                  exact hs3, hty3⟩
          · have hide : sid' = sock.socket_id := by simpa using hmem2
            subst hide
            exact ⟨sock, dictLookup_insert_self _ _ _, rfl⟩
        · rw [dictLookup_insert_ne m.type_index sock.socket_type _ t ht]
            at hlook
          obtain ⟨s3, hs3, hty3⟩ := hbuck t bucket' hlook sid' hmem
          have hne : sid' ≠ sock.socket_id := by
            intro hEq
            rw [hEq, dictLookup_eq_none_of_not_contains m.sockets
              sock.socket_id hc'] at hs3
            exact Option.noConfusion hs3
          exact ⟨s3, by
            rw [dictLookup_insert_ne m.sockets sock.socket_id sock sid' hne]
            exact hs3, hty3⟩

theorem managerInv_unregister (m : SocketManager) (uid : String)
    (hInv : ManagerInv m) : ManagerInv (m.unregister uid) := by
  obtain ⟨hnd1, hnd2, hreg, hbuck⟩ := hInv
  cases hu : dictLookup m.sockets uid with
  | none =>
      have heq : m.unregister uid = m := by
        simp [SocketManager.unregister, hu]
      rw [heq]
      exact ⟨hnd1, hnd2, hreg, hbuck⟩
  | some sock =>
      obtain ⟨b, hb, hcount⟩ := hreg uid sock hu
      have heq : m.unregister uid = { m with
          sockets := dictPop m.sockets uid,
          type_index := dictInsert m.type_index sock.socket_type
            (b.filter (fun sid => sid ≠ uid)) } := by
        simp [SocketManager.unregister, hu, hb]
      rw [heq]
      refine ⟨?_, ?_, ?_, ?_⟩
      · exact nodup_dictKeys_pop m.sockets uid hnd1
      · exact nodup_dictKeys_insert m.type_index sock.socket_type _ hnd2
      · intro sid' sock' hlook
        have hne : sid' ≠ uid := by
          intro hEq
          rw [hEq, dictLookup_pop_self m.sockets uid hnd1] at hlook
          exact Option.noConfusion hlook
        rw [dictLookup_pop_ne m.sockets uid sid' hne] at hlook
        obtain ⟨b2, hb2, hcount2⟩ := hreg sid' sock' hlook
        by_cases hty : sock'.socket_type = sock.socket_type
        · rw [hty] at hb2
          have hbeq : b2 = b := Option.some.inj (hb2.symm.trans hb)
          subst hbeq
          refine ⟨b2.filter (fun sid => sid ≠ uid), ?_, ?_⟩
          · rw [hty]
            exact dictLookup_insert_self _ _ _
          · rw [List.count_filter (by simp [hne])]
            exact hcount2
        · refine ⟨b2, ?_, hcount2⟩
          rw [dictLookup_insert_ne m.type_index sock.socket_type _
            sock'.socket_type hty]
          exact hb2
      · intro t bucket' hlook sid' hmem
        by_cases ht : t = sock.socket_type
        · subst ht
          rw [dictLookup_insert_self] at hlook
          have hbe : bucket' = b.filter (fun sid => sid ≠ uid) :=
            (Option.some.inj hlook).symm
          subst hbe
          have hmem2 := List.mem_filter.mp hmem
          have hne : sid' ≠ uid := by simpa using hmem2.2
          obtain ⟨s3, hs3, hty3⟩ := hbuck _ b hb sid' hmem2.1
          exact ⟨s3, by
            rw [dictLookup_pop_ne m.sockets uid sid' hne]
            exact hs3, hty3⟩
        · rw [dictLookup_insert_ne m.type_index sock.socket_type _ t ht]
            at hlook
          obtain ⟨s3, hs3, hty3⟩ := hbuck t bucket' hlook sid' hmem
          have hne : sid' ≠ uid := by
            intro hEq
            rw [hEq, hu] at hs3
            have hse : sock = s3 := Option.some.inj hs3
            rw [← hse] at hty3
            exact ht hty3.symm
          exact ⟨s3, by
            rw [dictLookup_pop_ne m.sockets uid sid' hne]
            exact hs3, hty3⟩

theorem managerInv_applyOp (m : SocketManager) (op : ManagerOp)
    (h : ManagerInv m) : ManagerInv (applyOp m op) := by
  cases op with
  | reg sock =>
      cases e : m.register sock with
      | ok m2 =>
          have heq : applyOp m (.reg sock) = m2 := by simp [applyOp, e]
          rw [heq]
          exact managerInv_register m sock m2 h e
      | error msg =>
          have heq : applyOp m (.reg sock) = m := by simp [applyOp, e]
          rw [heq]
          exact h
  | unreg sid => exact managerInv_unregister m sid h

theorem managerInv_applyOps (m : SocketManager) (ops : List ManagerOp)
    (h : ManagerInv m) : ManagerInv (applyOps m ops) := by
  induction ops generalizing m with
  | nil => exact h
  | cons op rest ih => exact ih (applyOp m op) (managerInv_applyOp m op h)

/-- C5: after any sequence of register/unregister operations starting from a
fresh manager, the registry and the type index are mutually consistent — every
id appearing in any type bucket is registered, and every registered socket's
id occurs exactly once, in the bucket of its own type (and in no bucket of
another type). -/
theorem claim_c5_registry_index_consistency (maxS : Nat)
    (ops : List ManagerOp) :
    (∀ t bucket,
      dictLookup (applyOps (SocketManager.init maxS) ops).type_index t =
        some bucket →
      ∀ sid ∈ bucket, ∃ sock,
        dictLookup (applyOps (SocketManager.init maxS) ops).sockets sid =
          some sock) ∧
    (∀ sid sock,
      dictLookup (applyOps (SocketManager.init maxS) ops).sockets sid =
        some sock →
      (∃ bucket,
        dictLookup (applyOps (SocketManager.init maxS) ops).type_index
          sock.socket_type = some bucket ∧ List.count sid bucket = 1) ∧
      (∀ t bucket,
        dictLookup (applyOps (SocketManager.init maxS) ops).type_index t =
          some bucket →
        t ≠ sock.socket_type → sid ∉ bucket)) := by
  obtain ⟨hnd1, hnd2, hreg, hbuck⟩ :=
    managerInv_applyOps (SocketManager.init maxS) ops (managerInv_init maxS)
  constructor
  · intro t bucket hlook sid hmem
    obtain ⟨s3, hs3, _⟩ := hbuck t bucket hlook sid hmem
    exact ⟨s3, hs3⟩
  · intro sid sock hlook
    refine ⟨hreg sid sock hlook, ?_⟩
    intro t bucket hbl hne hmem
    obtain ⟨s3, hs3, hty3⟩ := hbuck t bucket hbl sid hmem
    have hse : s3 = sock := Option.some.inj (hs3.symm.trans hlook)
    rw [hse] at hty3
    exact hne hty3.symm

/-- Witness for C5: after registering the comprehension socket, the id found in
the `sensory` bucket is indeed registered. -/
theorem claim_c5_witness :
    ∃ sock,
      dictLookup (applyOps (SocketManager.init 16)
        [ManagerOp.reg comprehensionSocket]).sockets "elmer:comprehension" =
      some sock :=
  (claim_c5_registry_index_consistency 16
    [ManagerOp.reg comprehensionSocket]).1 "sensory" ["elmer:comprehension"]
    rfl "elmer:comprehension" (by simp)
